import Mathlib

set_option autoImplicit false

/-!
Verification development for the CaImaging repository (src/CellReg.py and
src/util.py).  The numpy arrays manipulated by the code are embedded as
nested `List`s; a 2-D array of shape (r × c) is a list of r rows, each a
list of c entries.  The h5py container is embedded as a record of the fields
the code reads, with dereferencing of per-session object references given by
explicit functions.
-/

namespace CaImaging

/-- Entry `[i][j]` of a 2-D array embedded as a list of rows. -/
def ent2 {α : Type} (m : List (List α)) (i j : ℕ) : Option α :=
  m[i]?.bind (fun r => r[j]?)

/-- Entry `[i][j][k]` of a 3-D array embedded as nested lists. -/
def ent3 {α : Type} (a : List (List (List α))) (i j k : ℕ) : Option α :=
  (a[i]?.bind (fun p => p[j]?)).bind (fun r => r[k]?)

/-- numpy `.T` on a 2-D array: column `i` of the input becomes row `i` of
the output.  The number of columns is read off the first row, matching the
shape bookkeeping numpy performs on its (rectangular) arrays. -/
def np_T {α : Type} (m : List (List α)) : List (List α) :=
  (List.range (m.headD []).length).map (fun i => m.filterMap (fun r => r[i]?))

/-- `CellRegObj.process_registration_map` (src/CellReg.py lines 73-81):
transpose the raw `cell_to_index_map` back to (cells × sessions), then
subtract 1 from every entry (Matlab 1-based indices; 0 becomes the
sentinel -1).  `astype(int)` makes the result a signed-integer array, which
the embedding renders by working in `Int`. -/
def process_registration_map (raw : List (List Int)) : List (List Int) :=
  (np_T raw).map (fun row => row.map (fun v => v - 1))

lemma filterMap_getElem?_length {α : Type} (i : ℕ) (m : List (List α))
    (h : ∀ r ∈ m, i < r.length) :
    (m.filterMap (fun r => r[i]?)).length = m.length := by
  induction m with
  | nil => rfl
  | cons r t ih =>
    have hr : i < r.length := h r (List.mem_cons_self r t)
    have hr' : r[i]? = some r[i] := List.getElem?_eq_getElem hr
    rw [List.filterMap_cons, hr']
    simp only [List.length_cons]
    exact congrArg Nat.succ (ih (fun s hs => h s (List.mem_cons_of_mem r hs)))

lemma filterMap_getElem?_getElem? {α : Type} (i j : ℕ) (m : List (List α))
    (h : ∀ r ∈ m, i < r.length) :
    (m.filterMap (fun r => r[i]?))[j]? = m[j]?.bind (fun r => r[i]?) := by
  induction m generalizing j with
  | nil => simp
  | cons r t ih =>
    have hr : i < r.length := h r (List.mem_cons_self r t)
    have hr' : r[i]? = some r[i] := List.getElem?_eq_getElem hr
    cases j with
    | zero => rw [List.filterMap_cons, hr']; simp [hr']
    | succ j =>
      rw [List.filterMap_cons, hr']
      simp only [List.getElem?_cons_succ]
      exact ih j (fun s hs => h s (List.mem_cons_of_mem r hs))

lemma np_T_length {α : Type} (m : List (List α)) :
    (np_T m).length = (m.headD []).length := by
  simp [np_T]

lemma np_T_ent2 {α : Type} (m : List (List α)) (w i j : ℕ)
    (hrect : ∀ r ∈ m, r.length = w) (hi : i < w) (hj : j < m.length) :
    ent2 (np_T m) i j = ent2 m j i := by
  have hne : m ≠ [] := by
    intro h; rw [h] at hj; exact absurd hj (by simp)
  have hhead : (m.headD []).length = w := by
    cases m with
    | nil => exact absurd rfl hne
    | cons r t => exact hrect r (List.mem_cons_self r t)
  have hcol : ∀ r ∈ m, i < r.length := fun r hr => (hrect r hr) ▸ hi
  unfold ent2 np_T
  rw [List.getElem?_map, hhead]
  have hrange : (List.range w)[i]? = some i := by
    rw [List.getElem?_eq_getElem (by simpa using hi)]
    simp
  rw [hrange]
  simp only [Option.map_some', Option.some_bind]
  exact filterMap_getElem?_getElem? i j m hcol

lemma ent2_map_map {α β : Type} (f : α → β) (m : List (List α)) (i j : ℕ) :
    ent2 (m.map (fun row => row.map f)) i j = (ent2 m i j).map f := by
  unfold ent2
  rw [List.getElem?_map]
  cases h : m[i]? with
  | none => simp
  | some r => simp [List.getElem?_map]

lemma np_T_row_length {α : Type} (m : List (List α)) (w : ℕ)
    (hrect : ∀ r ∈ m, r.length = w) :
    ∀ row ∈ np_T m, row.length = m.length := by
  intro row hrow
  unfold np_T at hrow
  obtain ⟨i, hi, hcol⟩ := List.mem_map.mp hrow
  have hi' : i < w := by
    have := List.mem_range.mp hi
    have hhead : (m.headD []).length ≤ w ∨ m = [] := by
      cases m with
      | nil => exact Or.inr rfl
      | cons r t => exact Or.inl (le_of_eq (hrect r (List.mem_cons_self r t)))
    rcases hhead with h | h
    · exact lt_of_lt_of_le this h
    · rw [h] at this; simp at this
  rw [← hcol]
  exact filterMap_getElem?_length i m (fun r hr => (hrect r hr) ▸ hi')

/-- Claim C1: for every nonempty rectangular raw index-map array oriented
(sessions × cells), `process_registration_map` returns the transpose to
(cells × sessions) — shape (w × sessions) when the raw array has w columns —
with 1 subtracted from every entry (raw 0 becomes the sentinel -1, raw v
becomes v - 1, the entries living in the signed type `Int`); in particular
the raw map [[1,0,2],[2,1,0]] yields [[0,1],[-1,0],[1,-1]]. -/
theorem C1_process_registration_map (raw : List (List Int)) (w : ℕ)
    (hne : raw ≠ []) (hrect : ∀ r ∈ raw, r.length = w) :
    (process_registration_map raw).length = w ∧
    (∀ row ∈ process_registration_map raw, row.length = raw.length) ∧
    (∀ i j : ℕ, i < w → j < raw.length →
      ent2 (process_registration_map raw) i j = (ent2 raw j i).map (fun v => v - 1)) ∧
    process_registration_map [[1, 0, 2], [2, 1, 0]] = [[0, 1], [-1, 0], [1, -1]] := by
  have hhead : (raw.headD []).length = w := by
    cases raw with
    | nil => exact absurd rfl hne
    | cons r t => exact hrect r (List.mem_cons_self r t)
  refine ⟨?_, ?_, ?_, by decide⟩
  · unfold process_registration_map
    rw [List.length_map, np_T_length, hhead]
  · intro row hrow
    unfold process_registration_map at hrow
    obtain ⟨col, hcol, hrw⟩ := List.mem_map.mp hrow
    rw [← hrw, List.length_map]
    exact np_T_row_length raw w hrect col hcol
  · intro i j hi hj
    unfold process_registration_map
    rw [ent2_map_map, np_T_ent2 raw w i j hrect hi hj]

/-- Witness for C1: the spec scenario raw map [[1,0,2],[2,1,0]] satisfies the
hypotheses and yields the built MatchMap [[0,1],[-1,0],[1,-1]]. -/
theorem C1_process_registration_map_witness :
    ([[1, 0, 2], [2, 1, 0]] : List (List Int)) ≠ [] ∧
    (∀ r ∈ ([[1, 0, 2], [2, 1, 0]] : List (List Int)), r.length = 3) ∧
    process_registration_map [[1, 0, 2], [2, 1, 0]] = [[0, 1], [-1, 0], [1, -1]] :=
  ⟨by decide, by decide,
    (C1_process_registration_map [[1, 0, 2], [2, 1, 0]] 3 (by decide) (by decide)).2.2.2⟩

/-- Rectangular 3-D shape: every plane of the array has `w` rows and every
row has `c` entries (the first dimension is the list length itself). -/
def IsCuboid {α : Type} (w c : ℕ) (a : List (List (List α))) : Prop :=
  ∀ p ∈ a, p.length = w ∧ ∀ r ∈ p, r.length = c

/-- numpy `np.transpose(a, (2, 0, 1))`: axis order (h, w, c) becomes
(c, h, w), so entry `[k][i][j]` of the output is entry `[i][j][k]` of the
input.  The new leading dimension is read off the first row of the first
plane, matching numpy's shape bookkeeping on rectangular arrays. -/
def np_transpose201 {α : Type} (a : List (List (List α))) : List (List (List α)) :=
  (List.range ((a.headD []).headD []).length).map
    (fun k => a.map (fun p => p.filterMap (fun r => r[k]?)))

/-- numpy `np.float32(a)` on a 3-D array: an elementwise precision-narrowing
cast, embedded as mapping an abstract cast function over every entry. -/
def np_float32 {α β : Type} (f32 : α → β) (a : List (List (List α))) :
    List (List (List β)) :=
  a.map (fun p => p.map (fun r => r.map f32))

/-- `CellRegObj.process_spatial_footprints` (src/CellReg.py lines 83-93):
for each reference in the footprint reference array, in order, dereference
it, permute the axes from (height, width, cell) to (cell, height, width)
with `np.transpose(·, (2, 0, 1))`, and cast to float32. -/
def process_spatial_footprints {ρ α β : Type} (f32 : α → β)
    (file : ρ → List (List (List α))) (refs : List ρ) :
    List (List (List (List β))) :=
  refs.map (fun idx => np_float32 f32 (np_transpose201 (file idx)))

/-- `CellRegObj.process_centroids` (src/CellReg.py lines 95-104): for each
reference in the centroid reference array, in order, dereference it and
transpose it; no other transform is applied to the values. -/
def process_centroids {ρ α : Type} (file : ρ → List (List α)) (refs : List ρ) :
    List (List (List α)) :=
  refs.map (fun idx => np_T (file idx))

lemma headD_headD_length {α : Type} (a : List (List (List α))) (w c : ℕ)
    (hcub : IsCuboid w c a) (h0 : 0 < a.length) (w0 : 0 < w) :
    ((a.headD []).headD []).length = c := by
  cases a with
  | nil => simp at h0
  | cons p t =>
    have hp := hcub p (List.mem_cons_self p t)
    cases p with
    | nil =>
      have h1 : (0 : ℕ) = w := hp.1
      omega
    | cons r s => exact hp.2 r (List.mem_cons_self r s)

lemma np_transpose201_length {α : Type} (a : List (List (List α))) (w c : ℕ)
    (hcub : IsCuboid w c a) (h0 : 0 < a.length) (w0 : 0 < w) :
    (np_transpose201 a).length = c := by
  unfold np_transpose201
  rw [List.length_map, List.length_range, headD_headD_length a w c hcub h0 w0]

lemma np_transpose201_shape {α : Type} (a : List (List (List α))) (w c : ℕ)
    (hcub : IsCuboid w c a) :
    IsCuboid a.length w (np_transpose201 a) := by
  intro plane hplane
  unfold np_transpose201 at hplane
  obtain ⟨k, hk, rfl⟩ := List.mem_map.mp hplane
  refine ⟨List.length_map _ _, ?_⟩
  intro row hrow
  obtain ⟨p, hp, rfl⟩ := List.mem_map.mp hrow
  have hk' : k < c := by
    have := List.mem_range.mp hk
    calc k < ((a.headD []).headD []).length := this
      _ ≤ c := by
        cases a with
        | nil => simp
        | cons q t =>
          have hq := hcub q (List.mem_cons_self q t)
          cases q with
          | nil => simp
          | cons r s => exact le_of_eq (hq.2 r (List.mem_cons_self r s))
  rw [filterMap_getElem?_length k p (fun r hr => ((hcub p hp).2 r hr) ▸ hk')]
  exact (hcub p hp).1

lemma np_transpose201_ent3 {α : Type} (a : List (List (List α))) (w c k i j : ℕ)
    (hcub : IsCuboid w c a) (hk : k < c) (hi : i < a.length) (w0 : 0 < w) :
    ent3 (np_transpose201 a) k i j = ent3 a i j k := by
  have h0 : 0 < a.length := lt_of_le_of_lt (Nat.zero_le i) hi
  unfold ent3 np_transpose201
  rw [headD_headD_length a w c hcub h0 w0, List.getElem?_map]
  have hrk : (List.range c)[k]? = some k := by
    rw [List.getElem?_eq_getElem (by simpa using hk)]
    simp
  rw [hrk]
  simp only [Option.map_some', Option.some_bind]
  rw [List.getElem?_map, List.getElem?_eq_getElem hi]
  have hpmem : a[i] ∈ a := List.getElem_mem hi
  have hkr : ∀ r ∈ a[i], k < r.length :=
    fun r hr => ((hcub a[i] hpmem).2 r hr) ▸ hk
  simp only [Option.map_some', Option.some_bind]
  rw [filterMap_getElem?_getElem? k j a[i] hkr]

lemma ent3_map3 {α β : Type} (f : α → β) (a : List (List (List α))) (i j k : ℕ) :
    ent3 (np_float32 f a) i j k = (ent3 a i j k).map f := by
  unfold ent3 np_float32
  rw [List.getElem?_map]
  cases a[i]? with
  | none => simp
  | some p =>
    simp only [Option.map_some', Option.some_bind]
    rw [List.getElem?_map]
    cases p[j]? with
    | none => simp
    | some r => simp [List.getElem?_map]

lemma IsCuboid_np_float32 {α β : Type} (f : α → β) (a : List (List (List α)))
    (w c : ℕ) (h : IsCuboid w c a) : IsCuboid w c (np_float32 f a) := by
  intro plane hplane
  obtain ⟨p, hp, rfl⟩ := List.mem_map.mp hplane
  refine ⟨by rw [List.length_map]; exact (h p hp).1, ?_⟩
  intro row hrow
  obtain ⟨r, hr, rfl⟩ := List.mem_map.mp hrow
  rw [List.length_map]
  exact (h p hp).2 r hr

lemma np_float32_length {α β : Type} (f : α → β) (a : List (List (List α))) :
    (np_float32 f a).length = a.length :=
  List.length_map a _

/-- Claim C2: for every session reference in the footprint reference array,
`process_spatial_footprints` produces, in reference order, one array with
axes reordered from (height, width, cell) to (cell, height, width) — so a
raw (h × w × c) array becomes a (c × h × w) array — with every entry passed
through the float32 precision-narrowing cast. -/
theorem C2_process_spatial_footprints {ρ α β : Type} (f32 : α → β)
    (file : ρ → List (List (List α))) (refs : List ρ) (r : ρ) (n w c : ℕ)
    (hn : refs[n]? = some r) (w0 : 0 < w)
    (hcub : IsCuboid w c (file r)) :
    (process_spatial_footprints f32 file refs).length = refs.length ∧
    (process_spatial_footprints f32 file refs)[n]? =
      some (np_float32 f32 (np_transpose201 (file r))) ∧
    (0 < (file r).length →
      (np_float32 f32 (np_transpose201 (file r))).length = c) ∧
    IsCuboid (file r).length w (np_float32 f32 (np_transpose201 (file r))) ∧
    (∀ k i j : ℕ, k < c → i < (file r).length →
      ent3 (np_float32 f32 (np_transpose201 (file r))) k i j =
        (ent3 (file r) i j k).map f32) := by
  refine ⟨List.length_map refs _, ?_, ?_, ?_, ?_⟩
  · unfold process_spatial_footprints
    rw [List.getElem?_map, hn]
    rfl
  · intro h0
    rw [np_float32_length, np_transpose201_length (file r) w c hcub h0 w0]
  · exact IsCuboid_np_float32 f32 _ _ _ (np_transpose201_shape (file r) w c hcub)
  · intro k i j hk hi
    rw [ent3_map3, np_transpose201_ent3 (file r) w c k i j hcub hk hi w0]

/-- A concrete raw footprint array of shape (50, 60, 12) used to exercise
the C2 spec scenario. -/
def footprint5060 : List (List (List ℚ)) :=
  (List.range 50).map
    (fun _ => (List.range 60).map (fun _ => (List.range 12).map (fun k : ℕ => (k : ℚ))))

/-- Witness for C2: a raw (50, 60, 12) array assembles to a (12, 50, 60)
array under the identity-modelled float32 cast. -/
theorem C2_process_spatial_footprints_witness :
    (([0] : List ℕ)[0]? = some 0) ∧ (0 : ℕ) < 60 ∧ IsCuboid 60 12 footprint5060 ∧
    (np_float32 (fun q : ℚ => q) (np_transpose201 footprint5060)).length = 12 ∧
    IsCuboid 50 60 (np_float32 (fun q : ℚ => q) (np_transpose201 footprint5060)) := by
  have hcub : IsCuboid 60 12 footprint5060 := by
    intro p hp
    simp only [footprint5060, List.mem_map, List.mem_range] at hp
    obtain ⟨i, -, rfl⟩ := hp
    refine ⟨by rw [List.length_map, List.length_range], ?_⟩
    intro r hr
    simp only [List.mem_map, List.mem_range] at hr
    obtain ⟨j, -, rfl⟩ := hr
    rw [List.length_map, List.length_range]
  have hlen : footprint5060.length = 50 := by simp [footprint5060]
  have h := C2_process_spatial_footprints (fun q : ℚ => q)
    (fun _ : ℕ => footprint5060) [0] 0 0 60 12 rfl (by decide) hcub
  refine ⟨rfl, by decide, hcub, h.2.2.1 (by rw [hlen]; decide), ?_⟩
  have h4 := h.2.2.2.1
  rwa [hlen] at h4

/-- Claim C3: for every session reference in the centroid reference array,
`process_centroids` produces, in reference order, the raw (2 × m) array
transposed to (m × 2), with every entry equal to the corresponding raw
entry (no numeric transform applied to the values). -/
theorem C3_process_centroids {ρ α : Type} (file : ρ → List (List α))
    (refs : List ρ) (r : ρ) (n m : ℕ) (hn : refs[n]? = some r)
    (hne : file r ≠ []) (hrect : ∀ row ∈ file r, row.length = m) :
    (process_centroids file refs).length = refs.length ∧
    (process_centroids file refs)[n]? = some (np_T (file r)) ∧
    (np_T (file r)).length = m ∧
    (∀ row ∈ np_T (file r), row.length = (file r).length) ∧
    (∀ i j : ℕ, i < m → j < (file r).length →
      ent2 (np_T (file r)) i j = ent2 (file r) j i) := by
  have hhead : ((file r).headD []).length = m := by
    cases hf : file r with
    | nil => exact absurd hf hne
    | cons row t =>
      have := hrect row (by rw [hf]; exact List.mem_cons_self row t)
      simpa using this
  refine ⟨List.length_map refs _, ?_, ?_, ?_, ?_⟩
  · unfold process_centroids
    rw [List.getElem?_map, hn]
    rfl
  · rw [np_T_length, hhead]
  · exact np_T_row_length (file r) m hrect
  · intro i j hi hj
    exact np_T_ent2 (file r) m i j hrect hi hj

/-- Witness for C3: the raw 2 × 3 centroid array [[1,2,3],[4,5,6]]
transposes to the 3 × 2 array [[1,4],[2,5],[3,6]] with values unchanged. -/
theorem C3_process_centroids_witness :
    (([0] : List ℕ)[0]? = some 0) ∧
    ([[1, 2, 3], [4, 5, 6]] : List (List ℚ)) ≠ [] ∧
    (∀ row ∈ ([[1, 2, 3], [4, 5, 6]] : List (List ℚ)), row.length = 3) ∧
    (np_T [[1, 2, 3], [4, 5, 6]] : List (List ℚ)).length = 3 ∧
    (∀ row ∈ (np_T [[1, 2, 3], [4, 5, 6]] : List (List ℚ)), row.length = 2) := by
  have h := C3_process_centroids (fun _ : ℕ => ([[1, 2, 3], [4, 5, 6]] : List (List ℚ)))
    [0] 0 0 3 rfl (by decide) (by decide)
  exact ⟨rfl, by decide, by decide, h.2.2.1, h.2.2.2.1⟩

/-- numpy `np.mean` of a 1-D array, in exact arithmetic. -/
def np_mean (xs : List ℚ) : ℚ := xs.sum / (xs.length : ℚ)

/-- Population variance (`np.std` squared, ddof = 0), in exact arithmetic. -/
def np_var (xs : List ℚ) : ℚ :=
  ((xs.map (fun x => (x - np_mean xs) ^ 2)).sum) / (xs.length : ℚ)

/-- numpy `np.std` (population, ddof = 0).  The square root does not live in
ℚ, so it is supplied as an abstract function of the variance. -/
def np_std (sqrt : ℚ → ℚ) (xs : List ℚ) : ℚ := sqrt (np_var xs)

/-- `get_transient_timestamps` (src/util.py lines 172-209): per neuron,
threshold = mean + std_thresh * std of that neuron's own time series;
`event_times` are the indices where the trace strictly exceeds the
threshold (`np.where(neuron > t)[0]`), `event_mags` the values there, and
`bool_arr` the elementwise comparison against the tiled thresholds. -/
def get_transient_timestamps (sqrt : ℚ → ℚ) (neural_data : List (List ℚ))
    (std_thresh : ℚ) :
    List (List ℕ) × List (List ℚ) × List (List Bool) :=
  let thresh := neural_data.map
    (fun neuron => np_mean neuron + std_thresh * np_std sqrt neuron)
  let bool_arr := List.zipWith
    (fun neuron t => neuron.map (fun x => decide (t < x))) neural_data thresh
  let event_times := List.zipWith
    (fun (neuron : List ℚ) t =>
      (List.range neuron.length).filter (fun i => decide (t < neuron.getD i 0)))
    neural_data thresh
  let event_mags := List.zipWith
    (fun (neuron : List ℚ) t => neuron.filter (fun x => decide (t < x)))
    neural_data thresh
  (event_times, event_mags, bool_arr)

lemma zipWith_map_self {α β γ : Type} (f : α → β → γ) (g : α → β) (l : List α) :
    List.zipWith f l (l.map g) = l.map (fun a => f a (g a)) := by
  induction l with
  | nil => rfl
  | cons a t ih => simp [List.zipWith_cons_cons, ih]

/-- Claim C9: for each neuron, `get_transient_timestamps` returns exactly
the time indices at which the trace value strictly exceeds
mean + std_thresh * std, both computed over that neuron's own time
series. -/
theorem C9_get_transient_timestamps (sqrt : ℚ → ℚ) (neural_data : List (List ℚ))
    (std_thresh : ℚ) (n : ℕ) (neuron : List ℚ)
    (hn : neural_data[n]? = some neuron) :
    (get_transient_timestamps sqrt neural_data std_thresh).1.length =
      neural_data.length ∧
    ∃ times, (get_transient_timestamps sqrt neural_data std_thresh).1[n]? =
        some times ∧
      ∀ t : ℕ, t ∈ times ↔ ∃ x, neuron[t]? = some x ∧
        np_mean neuron + std_thresh * np_std sqrt neuron < x := by
  have hfst : (get_transient_timestamps sqrt neural_data std_thresh).1 =
      neural_data.map (fun neuron =>
        (List.range neuron.length).filter
          (fun i => decide (np_mean neuron + std_thresh * np_std sqrt neuron <
            neuron.getD i 0))) := by
    unfold get_transient_timestamps
    exact zipWith_map_self _ _ neural_data
  refine ⟨by rw [hfst, List.length_map], ?_⟩
  refine ⟨(List.range neuron.length).filter
    (fun i => decide (np_mean neuron + std_thresh * np_std sqrt neuron <
      neuron.getD i 0)), ?_, ?_⟩
  · rw [hfst, List.getElem?_map, hn]
    rfl
  · intro t
    rw [List.mem_filter, List.mem_range]
    constructor
    · rintro ⟨ht, hgt⟩
      refine ⟨neuron.getD t 0, ?_, of_decide_eq_true hgt⟩
      rw [List.getD_eq_getElem?_getD, List.getElem?_eq_getElem ht]
      rfl
    · rintro ⟨x, hx, hgt⟩
      have ht : t < neuron.length := by
        by_contra hge
        rw [List.getElem?_eq_none (le_of_not_lt hge)] at hx
        exact Option.noConfusion hx
      refine ⟨ht, decide_eq_true ?_⟩
      rw [List.getD_eq_getElem?_getD, hx]
      exact hgt

/-- Witness for C9 at the concrete trace [0, 0, 10, 0] with std_thresh = 3
and the identity standing in for the square root. -/
theorem C9_get_transient_timestamps_witness :
    (([[0, 0, 10, 0]] : List (List ℚ))[0]? = some [0, 0, 10, 0]) ∧
    ((get_transient_timestamps (fun q => q) [[0, 0, 10, 0]] 3).1.length =
      ([[0, 0, 10, 0]] : List (List ℚ)).length ∧
    ∃ times, (get_transient_timestamps (fun q => q) [[0, 0, 10, 0]] 3).1[0]? =
        some times ∧
      ∀ t : ℕ, t ∈ times ↔ ∃ x, ([0, 0, 10, 0] : List ℚ)[t]? = some x ∧
        np_mean [0, 0, 10, 0] + 3 * np_std (fun q => q) [0, 0, 10, 0] < x) :=
  ⟨rfl, C9_get_transient_timestamps (fun q => q) [[0, 0, 10, 0]] 3 0
    [0, 0, 10, 0] rfl⟩

/-! ## The compilation run (`CellRegObj`, src/CellReg.py lines 43-125)

`CellRegObj.__init__` runs `read_cellreg_output` (glob for the candidate
source file, assert there is at least one and exactly one, open the h5py
container) and then `compile_cellreg_data` (process the three collections
and pickle each one).  The run is embedded as a state machine over an
environment providing the glob result, the container fields, the reference
dereferencing functions, and an injected failure predicate for the output
writes; the state records the resource events, the written blobs, and the
error that aborted the run, if any. -/

/-- Serialization formats appearing in the repository: `pickle.dump` with
protocol 4 (used by `compile_cellreg_data`) and Matlab v5 `.mat` via
`scipy.io.savemat` (used by `SpatialFootprints.make_mat`). -/
inductive SerFormat
  | picklev4
  | matv5
  deriving DecidableEq

/-- Whether a serialization format can be loaded outside Python.  Python
pickle is a language-specific object-pickling format; Matlab v5 `.mat` is a
documented cross-language container. -/
def cross_language_portable : SerFormat → Bool
  | SerFormat.picklev4 => false
  | SerFormat.matv5 => true

/-- Content of one written output blob. -/
inductive Payload
  | matchMapP (m : List (List Int))
  | footprintsP (f : List (List (List (List ℚ))))
  | centroidsP (c : List (List (List ℚ)))
  deriving DecidableEq

/-- Resource and output events of one run. -/
inductive Event
  | openContainer
  | closeContainer
  | writeOutput (name : String)
  deriving DecidableEq

/-- Errors that abort a run: the two assertions of `read_cellreg_output`
(zero or multiple candidate files) and a failed output write. -/
inductive RunError
  | inputAmbiguity
  | serialization (name : String)
  deriving DecidableEq

/-- Environment of one run: glob result, container fields, dereferencing,
the float32 cast, and which output writes fail. -/
structure RunEnv where
  candidates : List String
  cell_to_index_map : List (List Int)
  footprint_refs : List ℕ
  centroid_refs : List ℕ
  deref3 : ℕ → List (List (List ℚ))
  deref2 : ℕ → List (List ℚ)
  f32 : ℚ → ℚ
  writeFails : String → Bool

/-- Observable state of one run. -/
structure RunState where
  events : List Event
  store : List (String × SerFormat × Payload)
  error : Option RunError
  deriving DecidableEq

/-- The candidate-file check of `CellRegObj.read_cellreg_output`
(src/CellReg.py lines 62-64): `assert len(cellreg_file) > 0` then
`assert len(cellreg_file) is 1`; on success the single file name is
returned for opening. -/
def read_cellreg_output_check (candidates : List String) :
    Except RunError String :=
  if h : 0 < candidates.length then
    if candidates.length = 1 then Except.ok (candidates.get ⟨0, h⟩)
    else Except.error RunError.inputAmbiguity
  else Except.error RunError.inputAmbiguity

/-- One `pickle.dump` call inside `compile_cellreg_data`: either the write
fails (aborting the run with a serialization error, everything already in
the store untouched) or the blob is appended to the store. -/
def pickle_dump (env : RunEnv) (st : RunState) (name : String) (p : Payload) :
    RunState :=
  if env.writeFails name then
    { st with error := some (RunError.serialization name) }
  else
    { st with
      store := st.store ++ [(name, SerFormat.picklev4, p)],
      events := st.events ++ [Event.writeOutput name] }

/-- `CellRegObj.compile_cellreg_data` (src/CellReg.py lines 106-125):
process the match map, centroids and footprints, then pickle the match map,
the footprints and the centroids, in that order, stopping at the first
failed write.  No close of the container handle occurs. -/
def compile_cellreg_data (env : RunEnv) (st : RunState) : RunState :=
  let match_map := process_registration_map env.cell_to_index_map
  let centroids := process_centroids env.deref2 env.centroid_refs
  let footprints :=
    process_spatial_footprints env.f32 env.deref3 env.footprint_refs
  let st1 := pickle_dump env st "CellRegResults.pkl" (Payload.matchMapP match_map)
  if st1.error ≠ none then st1
  else
    let st2 := pickle_dump env st1 "CellRegFootprints.pkl"
      (Payload.footprintsP footprints)
    if st2.error ≠ none then st2
    else pickle_dump env st2 "CellRegCentroids.pkl" (Payload.centroidsP centroids)

/-- `CellRegObj.__init__` (src/CellReg.py lines 44-55): read the container
(aborting on the candidate-file assertions before anything is opened), then
compile.  Opening the h5py file is recorded as an event; the source contains
no matching close, so no close event can ever be emitted. -/
def cellreg_run (env : RunEnv) : RunState :=
  match read_cellreg_output_check env.candidates with
  | Except.error e => { events := [], store := [], error := some e }
  | Except.ok _ =>
    compile_cellreg_data env
      { events := [Event.openContainer], store := [], error := none }

lemma read_check_error_iff (candidates : List String) :
    (∃ e, read_cellreg_output_check candidates = Except.error e) ↔
      candidates.length ≠ 1 := by
  unfold read_cellreg_output_check
  by_cases h0 : 0 < candidates.length
  · by_cases h1 : candidates.length = 1
    · simp [h0, h1]
    · simp [h0, h1]
  · have : candidates.length = 0 := Nat.eq_zero_of_not_pos h0
    simp [h0, this]

lemma read_check_error_val (candidates : List String) (e : RunError)
    (h : read_cellreg_output_check candidates = Except.error e) :
    e = RunError.inputAmbiguity := by
  unfold read_cellreg_output_check at h
  by_cases h0 : 0 < candidates.length
  · by_cases h1 : candidates.length = 1
    · simp [h0, h1] at h
    · simp [h0, h1] at h
      exact h.symm
  · simp [h0] at h
    exact h.symm

lemma compile_events_append (env : RunEnv) (st : RunState)
    (hst : st.error = none) :
    ∃ names : List String,
      (compile_cellreg_data env st).events =
        st.events ++ names.map Event.writeOutput := by
  unfold compile_cellreg_data pickle_dump
  by_cases h1 : env.writeFails "CellRegResults.pkl"
  · exact ⟨[], by simp [h1]⟩
  · by_cases h2 : env.writeFails "CellRegFootprints.pkl"
    · exact ⟨["CellRegResults.pkl"], by simp [h1, h2, hst]⟩
    · by_cases h3 : env.writeFails "CellRegCentroids.pkl"
      · exact ⟨["CellRegResults.pkl", "CellRegFootprints.pkl"],
          by simp [h1, h2, h3, hst]⟩
      · exact ⟨["CellRegResults.pkl", "CellRegFootprints.pkl",
          "CellRegCentroids.pkl"], by simp [h1, h2, h3, hst]⟩

lemma read_check_ok (candidates : List String) (h : candidates.length = 1) :
    ∃ f, read_cellreg_output_check candidates = Except.ok f := by
  unfold read_cellreg_output_check
  have h0 : 0 < candidates.length := by omega
  simp [h0, h]

lemma compile_error_cases (env : RunEnv) (st : RunState)
    (hst : st.error = none) :
    (compile_cellreg_data env st).error = none ∨
    ∃ name, (compile_cellreg_data env st).error =
      some (RunError.serialization name) := by
  unfold compile_cellreg_data pickle_dump
  by_cases h1 : env.writeFails "CellRegResults.pkl"
  · exact Or.inr ⟨"CellRegResults.pkl", by simp [h1]⟩
  · by_cases h2 : env.writeFails "CellRegFootprints.pkl"
    · exact Or.inr ⟨"CellRegFootprints.pkl", by simp [h1, h2, hst]⟩
    · by_cases h3 : env.writeFails "CellRegCentroids.pkl"
      · exact Or.inr ⟨"CellRegCentroids.pkl", by simp [h1, h2, h3, hst]⟩
      · exact Or.inl (by simp [h1, h2, h3, hst])

/-- A small fully concrete environment: one candidate file, the spec
scenario index map, two sessions, no injected write failure. -/
def sampleEnv : RunEnv where
  candidates := ["cellRegistered_sample.mat"]
  cell_to_index_map := [[1, 0, 2], [2, 1, 0]]
  footprint_refs := [0, 1]
  centroid_refs := [2, 3]
  deref3 := fun _ => [[[1, 0], [0, 1]]]
  deref2 := fun _ => [[1, 2, 3], [4, 5, 6]]
  f32 := fun q => q
  writeFails := fun _ => false

/-- `sampleEnv` with the footprint-blob write failing. -/
def failEnv : RunEnv :=
  { sampleEnv with writeFails := fun name => name == "CellRegFootprints.pkl" }

/-- `sampleEnv` with the centroid-blob write failing. -/
def failEnv2 : RunEnv :=
  { sampleEnv with writeFails := fun name => name == "CellRegCentroids.pkl" }

/-- Claim C4: with zero candidate source files, or more than one, the run
aborts with the input-ambiguity error before any data is processed (no
container opened, nothing written); with exactly one candidate it proceeds
past the check, opening the container, and can no longer fail with the
input-ambiguity error. -/
theorem C4_input_ambiguity (env : RunEnv) :
    ((env.candidates.length = 0 ∨ 1 < env.candidates.length) →
      cellreg_run env =
        { events := [], store := [], error := some RunError.inputAmbiguity }) ∧
    (env.candidates.length = 1 →
      Event.openContainer ∈ (cellreg_run env).events ∧
      (cellreg_run env).error ≠ some RunError.inputAmbiguity) := by
  constructor
  · intro hbad
    have hne : env.candidates.length ≠ 1 := by omega
    obtain ⟨e, he⟩ := (read_check_error_iff env.candidates).mpr hne
    have := read_check_error_val env.candidates e he
    subst this
    simp only [cellreg_run, he]
  · intro hone
    obtain ⟨f, hf⟩ := read_check_ok env.candidates hone
    simp only [cellreg_run, hf]
    constructor
    · obtain ⟨names, hev⟩ := compile_events_append env
        { events := [Event.openContainer], store := [], error := none } rfl
      rw [hev]
      exact List.mem_append_left _ (List.mem_cons_self _ _)
    · rcases compile_error_cases env
        { events := [Event.openContainer], store := [], error := none } rfl with
          h | ⟨name, h⟩
      · rw [h]; exact fun hc => Option.noConfusion hc
      · rw [h]
        intro hc
        exact RunError.noConfusion (Option.some.inj hc)

/-- Witness for C4: an empty glob result and a two-file glob result both
abort with the input-ambiguity error and empty trace; the one-file
environment opens the container and does not fail that way. -/
theorem C4_input_ambiguity_witness :
    cellreg_run { sampleEnv with candidates := [] } =
      { events := [], store := [], error := some RunError.inputAmbiguity } ∧
    cellreg_run { sampleEnv with candidates := ["a.mat", "b.mat"] } =
      { events := [], store := [], error := some RunError.inputAmbiguity } ∧
    (Event.openContainer ∈ (cellreg_run sampleEnv).events ∧
      (cellreg_run sampleEnv).error ≠ some RunError.inputAmbiguity) :=
  ⟨(C4_input_ambiguity { sampleEnv with candidates := [] }).1 (Or.inl rfl),
   (C4_input_ambiguity { sampleEnv with candidates := ["a.mat", "b.mat"] }).1
     (Or.inr (by decide)),
   (C4_input_ambiguity sampleEnv).2 rfl⟩

/-- Claim C5 is false on the code: at a concrete successful run the
container handle is opened but never released — the trace contains the open
event and no close event, because `read_cellreg_output` stores the open
`h5py.File` on the object and no close appears anywhere in the source. -/
theorem C5_handle_release_counterexample :
    Event.openContainer ∈ (cellreg_run sampleEnv).events ∧
    Event.closeContainer ∉ (cellreg_run sampleEnv).events := by decide

/-- Claim C5 amended: the container handle is acquired exactly when a
single candidate file is found, and on no execution path is it released
before the run ends — it is simply retained. -/
theorem C5_handle_retained (env : RunEnv) :
    Event.closeContainer ∉ (cellreg_run env).events ∧
    (Event.openContainer ∈ (cellreg_run env).events ↔
      env.candidates.length = 1) := by
  cases hr : read_cellreg_output_check env.candidates with
  | error e =>
    simp only [cellreg_run, hr]
    refine ⟨by simp, ?_⟩
    constructor
    · intro h; simp at h
    · intro hone
      obtain ⟨f, hf⟩ := read_check_ok env.candidates hone
      rw [hf] at hr
      exact Except.noConfusion hr
  | ok f =>
    simp only [cellreg_run, hr]
    obtain ⟨names, hev⟩ := compile_events_append env
      { events := [Event.openContainer], store := [], error := none } rfl
    rw [hev]
    constructor
    · intro hmem
      rcases List.mem_append.mp hmem with h | h
      · rcases List.mem_singleton.mp h with h
        exact Event.noConfusion h
      · obtain ⟨n, -, h⟩ := List.mem_map.mp h
        exact Event.noConfusion h
    · constructor
      · intro _
        by_contra hne
        obtain ⟨e, he⟩ := (read_check_error_iff env.candidates).mpr hne
        rw [he] at hr
        exact Except.noConfusion hr
      · intro _
        exact List.mem_append_left _ (List.mem_cons_self _ _)

/-- Claim C7 is false on the code: every output blob of a successful run is
written with Python pickle (protocol 4), which is a language-specific
object-pickling format, not a cross-language-portable one. -/
theorem C7_pickle_counterexample :
    (cellreg_run sampleEnv).store.map (fun b => (b.1, b.2.1)) =
      [("CellRegResults.pkl", SerFormat.picklev4),
       ("CellRegFootprints.pkl", SerFormat.picklev4),
       ("CellRegCentroids.pkl", SerFormat.picklev4)] ∧
    cross_language_portable SerFormat.picklev4 = false := by decide

/-- Claim C7 amended: the three artifacts are serialized with Python pickle
protocol 4 — a language-specific object-pickling format — and each blob's
content is exactly the computed object (match map with its sentinel, the
ordered footprint sequence, the ordered centroid sequence), so dtype,
sentinel, axis order and session order are preserved exactly within that
format. -/
theorem C7_serialization_format (env : RunEnv)
    (hok : env.candidates.length = 1)
    (hw : ∀ name, env.writeFails name = false) :
    (cellreg_run env).error = none ∧
    (cellreg_run env).store =
      [("CellRegResults.pkl", SerFormat.picklev4,
          Payload.matchMapP (process_registration_map env.cell_to_index_map)),
       ("CellRegFootprints.pkl", SerFormat.picklev4,
          Payload.footprintsP
            (process_spatial_footprints env.f32 env.deref3 env.footprint_refs)),
       ("CellRegCentroids.pkl", SerFormat.picklev4,
          Payload.centroidsP (process_centroids env.deref2 env.centroid_refs))] := by
  obtain ⟨f, hf⟩ := read_check_ok env.candidates hok
  simp only [cellreg_run, hf]
  unfold compile_cellreg_data pickle_dump
  simp [hw]

/-- Witness for the amended C7 at `sampleEnv`. -/
theorem C7_serialization_format_witness :
    sampleEnv.candidates.length = 1 ∧
    (∀ name, sampleEnv.writeFails name = false) ∧
    ((cellreg_run sampleEnv).error = none ∧
     (cellreg_run sampleEnv).store =
      [("CellRegResults.pkl", SerFormat.picklev4,
          Payload.matchMapP
            (process_registration_map sampleEnv.cell_to_index_map)),
       ("CellRegFootprints.pkl", SerFormat.picklev4,
          Payload.footprintsP (process_spatial_footprints sampleEnv.f32
            sampleEnv.deref3 sampleEnv.footprint_refs)),
       ("CellRegCentroids.pkl", SerFormat.picklev4,
          Payload.centroidsP
            (process_centroids sampleEnv.deref2 sampleEnv.centroid_refs))]) :=
  ⟨rfl, fun _ => rfl, C7_serialization_format sampleEnv rfl (fun _ => rfl)⟩

/-- Claim C8: whichever later output blob is the first to fail, every blob
already written earlier in the same run remains in the store unchanged — no
rollback is performed.  With the source's write order (match map, then
footprints, then centroids) the two later-failure cases are: the footprint
write fails after the match-map blob was written, which then persists
alone; and the centroid write fails after both the match-map and footprint
blobs were written, and both persist. -/
theorem C8_no_rollback (env : RunEnv)
    (hok : env.candidates.length = 1) :
    (env.writeFails "CellRegResults.pkl" = false →
     env.writeFails "CellRegFootprints.pkl" = true →
      (cellreg_run env).error =
        some (RunError.serialization "CellRegFootprints.pkl") ∧
      (cellreg_run env).store =
        [("CellRegResults.pkl", SerFormat.picklev4,
          Payload.matchMapP (process_registration_map env.cell_to_index_map))]) ∧
    (env.writeFails "CellRegResults.pkl" = false →
     env.writeFails "CellRegFootprints.pkl" = false →
     env.writeFails "CellRegCentroids.pkl" = true →
      (cellreg_run env).error =
        some (RunError.serialization "CellRegCentroids.pkl") ∧
      (cellreg_run env).store =
        [("CellRegResults.pkl", SerFormat.picklev4,
          Payload.matchMapP (process_registration_map env.cell_to_index_map)),
         ("CellRegFootprints.pkl", SerFormat.picklev4,
          Payload.footprintsP (process_spatial_footprints env.f32 env.deref3
            env.footprint_refs))]) := by
  obtain ⟨f, hf⟩ := read_check_ok env.candidates hok
  constructor
  · intro h1 h2
    simp only [cellreg_run, hf]
    unfold compile_cellreg_data pickle_dump
    simp [h1, h2]
  · intro h1 h2 h3
    simp only [cellreg_run, hf]
    unfold compile_cellreg_data pickle_dump
    simp [h1, h2, h3]

/-- Witness for C8 at `failEnv` (only the footprint write fails: the
match-map blob persists) and at `failEnv2` (only the centroid write fails:
the match-map and footprint blobs both persist). -/
theorem C8_no_rollback_witness :
    failEnv.candidates.length = 1 ∧
    failEnv.writeFails "CellRegResults.pkl" = false ∧
    failEnv.writeFails "CellRegFootprints.pkl" = true ∧
    failEnv2.candidates.length = 1 ∧
    failEnv2.writeFails "CellRegResults.pkl" = false ∧
    failEnv2.writeFails "CellRegFootprints.pkl" = false ∧
    failEnv2.writeFails "CellRegCentroids.pkl" = true ∧
    ((cellreg_run failEnv).error =
      some (RunError.serialization "CellRegFootprints.pkl") ∧
     (cellreg_run failEnv).store =
      [("CellRegResults.pkl", SerFormat.picklev4,
        Payload.matchMapP (process_registration_map failEnv.cell_to_index_map))]) ∧
    ((cellreg_run failEnv2).error =
      some (RunError.serialization "CellRegCentroids.pkl") ∧
     (cellreg_run failEnv2).store =
      [("CellRegResults.pkl", SerFormat.picklev4,
        Payload.matchMapP (process_registration_map failEnv2.cell_to_index_map)),
       ("CellRegFootprints.pkl", SerFormat.picklev4,
        Payload.footprintsP (process_spatial_footprints failEnv2.f32
          failEnv2.deref3 failEnv2.footprint_refs))]) :=
  ⟨rfl, by decide, by decide, rfl, by decide, by decide, by decide,
   (C8_no_rollback failEnv rfl).1 (by decide) (by decide),
   (C8_no_rollback failEnv2 rfl).2 (by decide) (by decide) (by decide)⟩

/-- Claim C6: fix the canonical session order at resolution time via a
session labeling `sess` on container references, with the container listing
the footprint references, the centroid references, and the raw index-map
rows in that canonical order (position k belongs to session k).  Then for
every position k the entry at index k of the assembled footprint sequence
is the processed dereference of a session-k reference, the entry at index k
of the assembled centroid sequence likewise, and column k of the built
match map consists exactly of the corrected entries of raw row k — session
k's row — so all three refer to the same underlying session. -/
theorem C6_session_order (f32 : ℚ → ℚ)
    (file3 : ℕ → List (List (List ℚ))) (file2 : ℕ → List (List ℚ))
    (sess : ℕ → ℕ) (frefs crefs : List ℕ) (raw : List (List Int))
    (S w k : ℕ)
    (hf : frefs.length = S) (hc : crefs.length = S) (hr : raw.length = S)
    (hrect : ∀ r ∈ raw, r.length = w) (hk : k < S)
    (hfs : ∀ i : Fin frefs.length, sess (frefs.get i) = i.val)
    (hcs : ∀ i : Fin crefs.length, sess (crefs.get i) = i.val) :
    (process_spatial_footprints f32 file3 frefs).length = S ∧
    (process_centroids file2 crefs).length = S ∧
    (∃ ref, frefs[k]? = some ref ∧ sess ref = k ∧
      (process_spatial_footprints f32 file3 frefs)[k]? =
        some (np_float32 f32 (np_transpose201 (file3 ref)))) ∧
    (∃ ref, crefs[k]? = some ref ∧ sess ref = k ∧
      (process_centroids file2 crefs)[k]? = some (np_T (file2 ref))) ∧
    (∀ i, i < w →
      ent2 (process_registration_map raw) i k =
        (ent2 raw k i).map (fun v => v - 1)) := by
  have hkf : k < frefs.length := hf ▸ hk
  have hkc : k < crefs.length := hc ▸ hk
  refine ⟨by rw [process_spatial_footprints, List.length_map, hf],
          by rw [process_centroids, List.length_map, hc], ?_, ?_, ?_⟩
  · refine ⟨frefs.get ⟨k, hkf⟩, ?_, hfs ⟨k, hkf⟩, ?_⟩
    · rw [List.getElem?_eq_getElem hkf]; rfl
    · rw [process_spatial_footprints, List.getElem?_map,
        List.getElem?_eq_getElem hkf]
      rfl
  · refine ⟨crefs.get ⟨k, hkc⟩, ?_, hcs ⟨k, hkc⟩, ?_⟩
    · rw [List.getElem?_eq_getElem hkc]; rfl
    · rw [process_centroids, List.getElem?_map, List.getElem?_eq_getElem hkc]
      rfl
  · intro i hi
    rw [process_registration_map, ent2_map_map,
      np_T_ent2 raw w i k hrect hi (hr ▸ hk)]

/-- Witness for C6 on the sample container: references [0,1] and [2,3] with
session labeling (· % 2), and the spec scenario raw map. -/
theorem C6_session_order_witness :
    ([0, 1] : List ℕ).length = 2 ∧ ([2, 3] : List ℕ).length = 2 ∧
    ([[1, 0, 2], [2, 1, 0]] : List (List Int)).length = 2 ∧
    (∀ r ∈ ([[1, 0, 2], [2, 1, 0]] : List (List Int)), r.length = 3) ∧
    (∀ i : Fin ([0, 1] : List ℕ).length, ([0, 1] : List ℕ).get i % 2 = i.val) ∧
    (∀ i : Fin ([2, 3] : List ℕ).length, ([2, 3] : List ℕ).get i % 2 = i.val) ∧
    (∀ i, i < 3 →
      ent2 (process_registration_map [[1, 0, 2], [2, 1, 0]]) i 1 =
        (ent2 [[1, 0, 2], [2, 1, 0]] 1 i).map (fun v => v - 1)) :=
  ⟨rfl, rfl, rfl, by decide, by decide, by decide,
    (C6_session_order (fun q => q) (fun _ => [[[1, 0], [0, 1]]])
      (fun _ => [[1, 2, 3], [4, 5, 6]]) (· % 2) [0, 1] [2, 3]
      [[1, 0, 2], [2, 1, 0]] 2 3 1 rfl rfl rfl (by decide) (by decide)
      (by decide) (by decide)).2.2.2.2⟩

/-! ## Behavior/neural synchronization (`synchronize_time_series`,
src/util.py lines 128-169)

The position dict produced by `read_eztrack` is embedded as an association
list from string keys to rational arrays, in insertion order; assignment to
an existing key replaces its value in place, assignment to a new key
appends it, mirroring Python dict semantics. -/

/-- A Python dict from string keys to numeric 1-D arrays. -/
abbrev PosDict := List (String × List ℚ)

/-- `d[k]` (empty array when the key is absent, which the code never
relies on). -/
def dictGet (d : PosDict) (k : String) : List ℚ :=
  ((d.find? (fun e => e.1 == k)).map Prod.snd).getD []

/-- `d[k] = v`: replace the value of an existing key in place, or append a
new key. -/
def dictSet (d : PosDict) (k : String) (v : List ℚ) : PosDict :=
  if d.any (fun e => e.1 == k) then
    d.map (fun e => if e.1 == k then (k, v) else e)
  else d ++ [(k, v)]

/-- numpy `np.arange(0, stop, step)` for positive step, in exact
arithmetic: the ⌈stop/step⌉ samples k·step. -/
def np_arange (stop step : ℚ) : List ℚ :=
  (List.range (Int.toNat ⌈stop / step⌉)).map (fun k : ℕ => (k : ℚ) * step)

/-- numpy `np.interp` at one query point over coordinate/value pairs with
increasing coordinates: clamped to the end values outside the range,
piecewise linear inside. -/
def interp_at (q : ℚ) : List (ℚ × ℚ) → ℚ
  | [] => 0
  | [(_, y)] => y
  | (x1, y1) :: (x2, y2) :: rest =>
    if q ≤ x1 then y1
    else if q ≤ x2 then y1 + (y2 - y1) * (q - x1) / (x2 - x1)
    else interp_at q ((x2, y2) :: rest)

/-- numpy `np.interp(xs, xp, fp)`. -/
def np_interp (xs xp fp : List ℚ) : List ℚ :=
  xs.map (fun q => interp_at q (xp.zip fp))

/-- numpy `np.diff`: consecutive differences. -/
def np_diff (xs : List ℚ) : List ℚ :=
  List.zipWith (fun b a => b - a) xs.tail xs

/-- numpy `np.hypot`, with the square root abstract since it does not live
in ℚ. -/
def np_hypot (sqrt : ℚ → ℚ) (dx dy : ℚ) : ℚ := sqrt (dx ^ 2 + dy ^ 2)

/-- Python `min` over a nonempty numeric array. -/
def np_min (xs : List ℚ) : ℚ :=
  match xs with
  | [] => 0
  | x :: t => t.foldl min x

/-- `synchronize_time_series` (src/util.py lines 128-169): interpolate the
x, y and frame traces onto the neural time grid, shift x and y so their
minimum is 0, overwrite distance with per-step Euclidean displacements of
the shifted trace, and store a velocity trace starting at 0; the dict is
mutated in place and returned. -/
def synchronize_time_series (sqrt : ℚ → ℚ) (position : PosDict)
    (neural : List (List ℚ)) (behav_fps neural_fps : ℚ) : PosDict :=
  let neural_nframes : ℕ := (neural.headD []).length
  let behav_nframes : ℕ := (dictGet position "frame").length
  let neural_t := np_arange ((neural_nframes : ℚ) / neural_fps) (1 / neural_fps)
  let behav_t := np_arange ((behav_nframes : ℚ) / behav_fps) (1 / behav_fps)
  let p1 := dictSet position "x" (np_interp neural_t behav_t (dictGet position "x"))
  let p2 := dictSet p1 "y" (np_interp neural_t behav_t (dictGet p1 "y"))
  let p3 := dictSet p2 "frame" (np_interp neural_t behav_t (dictGet p2 "frame"))
  let p4 := dictSet p3 "x" ((dictGet p3 "x").map (fun a => a - np_min (dictGet p3 "x")))
  let p5 := dictSet p4 "y" ((dictGet p4 "y").map (fun a => a - np_min (dictGet p4 "y")))
  let p6 := dictSet p5 "distance"
    (List.zipWith (np_hypot sqrt) (np_diff (dictGet p5 "x"))
      (np_diff (dictGet p5 "y")))
  dictSet p6 "velocity"
    (0 :: (dictGet p6 "distance").map (fun d => d * min neural_fps behav_fps))

lemma find?_map_set_self (d : PosDict) (k : String) (v : List ℚ)
    (h : d.any (fun e => e.1 == k) = true) :
    (d.map (fun e => if e.1 == k then (k, v) else e)).find?
      (fun e => e.1 == k) = some (k, v) := by
  induction d with
  | nil => simp at h
  | cons e t ih =>
    by_cases he : (e.1 == k) = true
    · simp only [List.map_cons, he, if_true]
      exact List.find?_cons_of_pos _ (by simp)
    · have he' : (e.1 == k) = false := by
        cases hb : (e.1 == k) with
        | true => exact absurd hb he
        | false => rfl
      have ht : t.any (fun e => e.1 == k) = true := by
        simp only [List.any_cons, he', Bool.false_or] at h
        exact h
      rw [List.map_cons, if_neg he, List.find?_cons_of_neg _ (by simp [he'])]
      exact ih ht

lemma find?_append_set_self (d : PosDict) (k : String) (v : List ℚ)
    (h : d.any (fun e => e.1 == k) = false) :
    (d ++ [(k, v)]).find? (fun e => e.1 == k) = some (k, v) := by
  induction d with
  | nil => exact List.find?_cons_of_pos _ (by simp)
  | cons e t ih =>
    simp only [List.any_cons, Bool.or_eq_false_iff] at h
    rw [List.cons_append, List.find?_cons_of_neg _ (by simp [h.1])]
    exact ih h.2

lemma dictGet_set_self (d : PosDict) (k : String) (v : List ℚ) :
    dictGet (dictSet d k v) k = v := by
  unfold dictGet dictSet
  by_cases h : d.any (fun e => e.1 == k) = true
  · rw [if_pos h, find?_map_set_self d k v h]
    rfl
  · have h' : d.any (fun e => e.1 == k) = false := by
      cases hb : d.any (fun e => e.1 == k) with
      | true => exact absurd hb h
      | false => rfl
    rw [if_neg h, find?_append_set_self d k v h']
    rfl

lemma find?_map_set_other (d : PosDict) (k k2 : String) (v : List ℚ)
    (hne : k2 ≠ k) :
    (d.map (fun e => if e.1 == k then (k, v) else e)).find?
      (fun e => e.1 == k2) = d.find? (fun e => e.1 == k2) := by
  induction d with
  | nil => rfl
  | cons e t ih =>
    by_cases he : (e.1 == k) = true
    · have he1 : e.1 = k := eq_of_beq he
      have h2 : (e.1 == k2) = false := by
        rw [he1]
        exact beq_eq_false_iff_ne.mpr (fun hh => hne hh.symm)
      rw [List.map_cons, if_pos he,
        List.find?_cons_of_neg _ (by simp [beq_eq_false_iff_ne.mpr
          (fun hh : k = k2 => hne hh.symm)]),
        List.find?_cons_of_neg _ (by simp [h2])]
      exact ih
    · rw [List.map_cons, if_neg he]
      by_cases hp : (e.1 == k2) = true
      · rw [List.find?_cons_of_pos _ (by simp [hp]),
          List.find?_cons_of_pos _ (by simp [hp])]
      · rw [List.find?_cons_of_neg _ (by simp_all),
          List.find?_cons_of_neg _ (by simp_all)]
        exact ih

lemma find?_append_set_other (d : PosDict) (k k2 : String) (v : List ℚ)
    (hne : k2 ≠ k) :
    (d ++ [(k, v)]).find? (fun e => e.1 == k2) =
      d.find? (fun e => e.1 == k2) := by
  induction d with
  | nil =>
    rw [List.nil_append,
      List.find?_cons_of_neg _ (by simp [beq_eq_false_iff_ne.mpr
        (fun hh : k = k2 => hne hh.symm)])]
  | cons e t ih =>
    by_cases hp : (e.1 == k2) = true
    · rw [List.cons_append, List.find?_cons_of_pos _ (by simp [hp]),
        List.find?_cons_of_pos _ (by simp [hp])]
    · rw [List.cons_append, List.find?_cons_of_neg _ (by simp_all),
        List.find?_cons_of_neg _ (by simp_all)]
      exact ih

lemma find?_dictSet_other (d : PosDict) (k k2 : String) (v : List ℚ)
    (hne : k2 ≠ k) :
    (dictSet d k v).find? (fun e => e.1 == k2) =
      d.find? (fun e => e.1 == k2) := by
  unfold dictSet
  by_cases h : d.any (fun e => e.1 == k) = true
  · rw [if_pos h]
    exact find?_map_set_other d k k2 v hne
  · rw [if_neg h]
    exact find?_append_set_other d k k2 v hne

lemma dictGet_set_other (d : PosDict) (k k2 : String) (v : List ℚ)
    (hne : k2 ≠ k) :
    dictGet (dictSet d k v) k2 = dictGet d k2 := by
  unfold dictGet
  rw [find?_dictSet_other d k k2 v hne]

lemma sync_x_eq (sqrt : ℚ → ℚ) (position : PosDict)
    (neural : List (List ℚ)) (behav_fps neural_fps : ℚ) :
    dictGet (synchronize_time_series sqrt position neural behav_fps neural_fps)
        "x" =
      (np_interp
          (np_arange (((neural.headD []).length : ℚ) / neural_fps) (1 / neural_fps))
          (np_arange (((dictGet position "frame").length : ℚ) / behav_fps) (1 / behav_fps))
          (dictGet position "x")).map
        (fun a => a - np_min (np_interp
          (np_arange (((neural.headD []).length : ℚ) / neural_fps) (1 / neural_fps))
          (np_arange (((dictGet position "frame").length : ℚ) / behav_fps) (1 / behav_fps))
          (dictGet position "x"))) := by
  simp only [synchronize_time_series]
  rw [dictGet_set_other _ "velocity" "x" _ (by decide),
      dictGet_set_other _ "distance" "x" _ (by decide),
      dictGet_set_other _ "y" "x" _ (by decide),
      dictGet_set_self _ "x" _,
      dictGet_set_other _ "frame" "x" _ (by decide),
      dictGet_set_other _ "y" "x" _ (by decide),
      dictGet_set_self _ "x" _]

lemma sync_y_eq (sqrt : ℚ → ℚ) (position : PosDict)
    (neural : List (List ℚ)) (behav_fps neural_fps : ℚ) :
    dictGet (synchronize_time_series sqrt position neural behav_fps neural_fps)
        "y" =
      (np_interp
          (np_arange (((neural.headD []).length : ℚ) / neural_fps) (1 / neural_fps))
          (np_arange (((dictGet position "frame").length : ℚ) / behav_fps) (1 / behav_fps))
          (dictGet position "y")).map
        (fun a => a - np_min (np_interp
          (np_arange (((neural.headD []).length : ℚ) / neural_fps) (1 / neural_fps))
          (np_arange (((dictGet position "frame").length : ℚ) / behav_fps) (1 / behav_fps))
          (dictGet position "y"))) := by
  simp only [synchronize_time_series]
  rw [dictGet_set_other _ "velocity" "y" _ (by decide),
      dictGet_set_other _ "distance" "y" _ (by decide),
      dictGet_set_self _ "y" _,
      dictGet_set_other _ "x" "y" _ (by decide),
      dictGet_set_other _ "frame" "y" _ (by decide),
      dictGet_set_self _ "y" _,
      dictGet_set_other _ "x" "y" _ (by decide)]

lemma sync_frame_eq (sqrt : ℚ → ℚ) (position : PosDict)
    (neural : List (List ℚ)) (behav_fps neural_fps : ℚ) :
    dictGet (synchronize_time_series sqrt position neural behav_fps neural_fps)
        "frame" =
      np_interp
        (np_arange (((neural.headD []).length : ℚ) / neural_fps) (1 / neural_fps))
        (np_arange (((dictGet position "frame").length : ℚ) / behav_fps) (1 / behav_fps))
        (dictGet position "frame") := by
  simp only [synchronize_time_series]
  rw [dictGet_set_other _ "velocity" "frame" _ (by decide),
      dictGet_set_other _ "distance" "frame" _ (by decide),
      dictGet_set_other _ "y" "frame" _ (by decide),
      dictGet_set_other _ "x" "frame" _ (by decide),
      dictGet_set_self _ "frame" _,
      dictGet_set_other _ "y" "frame" _ (by decide),
      dictGet_set_other _ "x" "frame" _ (by decide)]

lemma sync_distance_eq (sqrt : ℚ → ℚ) (position : PosDict)
    (neural : List (List ℚ)) (behav_fps neural_fps : ℚ) :
    dictGet (synchronize_time_series sqrt position neural behav_fps neural_fps)
        "distance" =
      List.zipWith (np_hypot sqrt)
        (np_diff ((np_interp
          (np_arange (((neural.headD []).length : ℚ) / neural_fps) (1 / neural_fps))
          (np_arange (((dictGet position "frame").length : ℚ) / behav_fps) (1 / behav_fps))
          (dictGet position "x")).map
          (fun a => a - np_min (np_interp
            (np_arange (((neural.headD []).length : ℚ) / neural_fps) (1 / neural_fps))
            (np_arange (((dictGet position "frame").length : ℚ) / behav_fps) (1 / behav_fps))
            (dictGet position "x")))))
        (np_diff ((np_interp
          (np_arange (((neural.headD []).length : ℚ) / neural_fps) (1 / neural_fps))
          (np_arange (((dictGet position "frame").length : ℚ) / behav_fps) (1 / behav_fps))
          (dictGet position "y")).map
          (fun a => a - np_min (np_interp
            (np_arange (((neural.headD []).length : ℚ) / neural_fps) (1 / neural_fps))
            (np_arange (((dictGet position "frame").length : ℚ) / behav_fps) (1 / behav_fps))
            (dictGet position "y"))))) := by
  simp only [synchronize_time_series]
  rw [dictGet_set_other _ "velocity" "distance" _ (by decide),
      dictGet_set_self _ "distance" _,
      dictGet_set_other _ "y" "x" _ (by decide),
      dictGet_set_self _ "x" _,
      dictGet_set_other _ "frame" "x" _ (by decide),
      dictGet_set_other _ "y" "x" _ (by decide),
      dictGet_set_self _ "x" _,
      dictGet_set_self _ "y" _,
      dictGet_set_other _ "x" "y" _ (by decide),
      dictGet_set_other _ "frame" "y" _ (by decide),
      dictGet_set_self _ "y" _,
      dictGet_set_other _ "x" "y" _ (by decide)]

lemma sync_velocity_eq (sqrt : ℚ → ℚ) (position : PosDict)
    (neural : List (List ℚ)) (behav_fps neural_fps : ℚ) :
    dictGet (synchronize_time_series sqrt position neural behav_fps neural_fps)
        "velocity" =
      0 :: (List.zipWith (np_hypot sqrt)
        (np_diff ((np_interp
          (np_arange (((neural.headD []).length : ℚ) / neural_fps) (1 / neural_fps))
          (np_arange (((dictGet position "frame").length : ℚ) / behav_fps) (1 / behav_fps))
          (dictGet position "x")).map
          (fun a => a - np_min (np_interp
            (np_arange (((neural.headD []).length : ℚ) / neural_fps) (1 / neural_fps))
            (np_arange (((dictGet position "frame").length : ℚ) / behav_fps) (1 / behav_fps))
            (dictGet position "x")))))
        (np_diff ((np_interp
          (np_arange (((neural.headD []).length : ℚ) / neural_fps) (1 / neural_fps))
          (np_arange (((dictGet position "frame").length : ℚ) / behav_fps) (1 / behav_fps))
          (dictGet position "y")).map
          (fun a => a - np_min (np_interp
            (np_arange (((neural.headD []).length : ℚ) / neural_fps) (1 / neural_fps))
            (np_arange (((dictGet position "frame").length : ℚ) / behav_fps) (1 / behav_fps))
            (dictGet position "y")))))).map
        (fun d => d * min neural_fps behav_fps) := by
  simp only [synchronize_time_series]
  rw [dictGet_set_self _ "velocity" _,
      dictGet_set_self _ "distance" _,
      dictGet_set_other _ "y" "x" _ (by decide),
      dictGet_set_self _ "x" _,
      dictGet_set_other _ "frame" "x" _ (by decide),
      dictGet_set_other _ "y" "x" _ (by decide),
      dictGet_set_self _ "x" _,
      dictGet_set_self _ "y" _,
      dictGet_set_other _ "x" "y" _ (by decide),
      dictGet_set_other _ "frame" "y" _ (by decide),
      dictGet_set_self _ "y" _,
      dictGet_set_other _ "x" "y" _ (by decide)]

lemma sync_other_keys (sqrt : ℚ → ℚ) (position : PosDict)
    (neural : List (List ℚ)) (behav_fps neural_fps : ℚ) (k : String)
    (hx : k ≠ "x") (hy : k ≠ "y") (hf : k ≠ "frame") (hd : k ≠ "distance")
    (hv : k ≠ "velocity") :
    (synchronize_time_series sqrt position neural behav_fps neural_fps).find?
        (fun e => e.1 == k) =
      position.find? (fun e => e.1 == k) := by
  simp only [synchronize_time_series]
  rw [find?_dictSet_other _ "velocity" k _ hv,
      find?_dictSet_other _ "distance" k _ hd,
      find?_dictSet_other _ "y" k _ hy,
      find?_dictSet_other _ "x" k _ hx,
      find?_dictSet_other _ "frame" k _ hf,
      find?_dictSet_other _ "y" k _ hy,
      find?_dictSet_other _ "x" k _ hx]

/-- The concrete position dict of the C10 scenario: constant x = 10, two
behavior frames. -/
def pos0 : PosDict :=
  [("x", [10, 10]), ("y", [0, 0]), ("frame", [0, 1]), ("distance", [0, 0])]

lemma np_arange_behav : np_arange ((2 : ℚ) / 30) (1 / 30) = [0, 1 / 30] := by
  unfold np_arange
  rw [show ((2 : ℚ) / 30) / (1 / 30) = 2 by norm_num]
  rw [show ⌈(2 : ℚ)⌉ = 2 by norm_num]
  rw [show Int.toNat (2 : ℤ) = 2 from rfl]
  rw [show List.range 2 = [0, 1] from rfl]
  norm_num

lemma np_arange_neural : np_arange ((2 : ℚ) / 15) (1 / 15) = [0, 1 / 15] := by
  unfold np_arange
  rw [show ((2 : ℚ) / 15) / (1 / 15) = 2 by norm_num]
  rw [show ⌈(2 : ℚ)⌉ = 2 by norm_num]
  rw [show Int.toNat (2 : ℤ) = 2 from rfl]
  rw [show List.range 2 = [0, 1] from rfl]
  norm_num

lemma interp_flat :
    np_interp [0, 1 / 15] [0, 1 / 30] [10, 10] = [10, 10] := by
  have h1 : interp_at (0 : ℚ) [(0, 10), (1 / 30, 10)] = 10 := by
    simp only [interp_at]
    rw [if_pos le_rfl]
  have h2 : interp_at ((1 : ℚ) / 15) [(0, 10), (1 / 30, 10)] = 10 := by
    simp only [interp_at]
    rw [if_neg (by norm_num), if_neg (by norm_num)]
  unfold np_interp
  rw [show List.zip ([0, 1 / 30] : List ℚ) ([10, 10] : List ℚ) =
    [(0, 10), (1 / 30, 10)] from rfl]
  rw [List.map_cons, List.map_cons, List.map_nil]
  rw [show interp_at (0 : ℚ) [(0, 10), (1 / 30, 10)] = 10 from h1]
  rw [show interp_at ((1 : ℚ) / 15) [(0, 10), (1 / 30, 10)] = 10 from h2]

/-- Claim C10 is false as stated: with a constant x trace at 10 the
interpolated x values are [10, 10], but the returned dict holds [0, 0] in
'x', because the code additionally shifts x (and y) down by its minimum
after interpolating. -/
theorem C10_normalization_counterexample :
    dictGet (synchronize_time_series (fun q => q) pos0 [[0, 0]] 30 15) "x" =
      [0, 0] ∧
    np_interp (np_arange ((2 : ℚ) / 15) (1 / 15))
      (np_arange ((2 : ℚ) / 30) (1 / 30)) (dictGet pos0 "x") = [10, 10] ∧
    ([0, 0] : List ℚ) ≠ [10, 10] := by
  have hgx : dictGet pos0 "x" = [10, 10] := by decide
  have hn : ((([[(0 : ℚ), 0]] : List (List ℚ)).headD []).length : ℚ) = 2 := by
    norm_num
  have hb : ((dictGet pos0 "frame").length : ℚ) = 2 := by
    rw [show dictGet pos0 "frame" = [0, 1] from by decide]
    norm_num
  refine ⟨?_, ?_, by norm_num⟩
  · rw [sync_x_eq, hn, hb, hgx, np_arange_neural, np_arange_behav, interp_flat]
    rw [show np_min ([10, 10] : List ℚ) = 10 from by decide]
    norm_num
  · rw [hgx, np_arange_neural, np_arange_behav, interp_flat]

/-- Claim C10 amended: `synchronize_time_series` updates its position dict
and returns it with: 'x' and 'y' replaced by their linear interpolation
onto the neural time grid *shifted down by the interpolated minimum* (so
each starts at minimum 0), 'frame' replaced by its plain interpolation,
'distance' overwritten with the per-step Euclidean displacements of the
shifted trace, a 'velocity' entry starting at 0 added, and every other key
left untouched. -/
theorem C10_synchronize_time_series (sqrt : ℚ → ℚ) (position : PosDict)
    (neural : List (List ℚ)) (behav_fps neural_fps : ℚ) :
    (dictGet (synchronize_time_series sqrt position neural behav_fps neural_fps)
        "x" =
      (np_interp
          (np_arange (((neural.headD []).length : ℚ) / neural_fps) (1 / neural_fps))
          (np_arange (((dictGet position "frame").length : ℚ) / behav_fps) (1 / behav_fps))
          (dictGet position "x")).map
        (fun a => a - np_min (np_interp
          (np_arange (((neural.headD []).length : ℚ) / neural_fps) (1 / neural_fps))
          (np_arange (((dictGet position "frame").length : ℚ) / behav_fps) (1 / behav_fps))
          (dictGet position "x")))) ∧
    (dictGet (synchronize_time_series sqrt position neural behav_fps neural_fps)
        "y" =
      (np_interp
          (np_arange (((neural.headD []).length : ℚ) / neural_fps) (1 / neural_fps))
          (np_arange (((dictGet position "frame").length : ℚ) / behav_fps) (1 / behav_fps))
          (dictGet position "y")).map
        (fun a => a - np_min (np_interp
          (np_arange (((neural.headD []).length : ℚ) / neural_fps) (1 / neural_fps))
          (np_arange (((dictGet position "frame").length : ℚ) / behav_fps) (1 / behav_fps))
          (dictGet position "y")))) ∧
    (dictGet (synchronize_time_series sqrt position neural behav_fps neural_fps)
        "frame" =
      np_interp
        (np_arange (((neural.headD []).length : ℚ) / neural_fps) (1 / neural_fps))
        (np_arange (((dictGet position "frame").length : ℚ) / behav_fps) (1 / behav_fps))
        (dictGet position "frame")) ∧
    (dictGet (synchronize_time_series sqrt position neural behav_fps neural_fps)
        "distance" =
      List.zipWith (np_hypot sqrt)
        (np_diff (dictGet
          (synchronize_time_series sqrt position neural behav_fps neural_fps) "x"))
        (np_diff (dictGet
          (synchronize_time_series sqrt position neural behav_fps neural_fps) "y"))) ∧
    (dictGet (synchronize_time_series sqrt position neural behav_fps neural_fps)
        "velocity" =
      0 :: (dictGet
          (synchronize_time_series sqrt position neural behav_fps neural_fps)
          "distance").map (fun d => d * min neural_fps behav_fps)) ∧
    (∀ k : String, k ≠ "x" → k ≠ "y" → k ≠ "frame" → k ≠ "distance" →
      k ≠ "velocity" →
      (synchronize_time_series sqrt position neural behav_fps neural_fps).find?
          (fun e => e.1 == k) =
        position.find? (fun e => e.1 == k)) := by
  refine ⟨sync_x_eq sqrt position neural behav_fps neural_fps,
          sync_y_eq sqrt position neural behav_fps neural_fps,
          sync_frame_eq sqrt position neural behav_fps neural_fps, ?_, ?_,
          sync_other_keys sqrt position neural behav_fps neural_fps⟩
  · rw [sync_distance_eq sqrt position neural behav_fps neural_fps,
      sync_x_eq sqrt position neural behav_fps neural_fps,
      sync_y_eq sqrt position neural behav_fps neural_fps]
  · rw [sync_velocity_eq sqrt position neural behav_fps neural_fps,
      sync_distance_eq sqrt position neural behav_fps neural_fps]

/-- Witness for the amended C10: at the concrete scenario dict, a key not
among the five updated ones keeps its binding. -/
theorem C10_synchronize_time_series_witness :
    (("heading" : String) ≠ "x") ∧ (("heading" : String) ≠ "y") ∧
    (("heading" : String) ≠ "frame") ∧ (("heading" : String) ≠ "distance") ∧
    (("heading" : String) ≠ "velocity") ∧
    (synchronize_time_series (fun q => q) pos0 [[0, 0]] 30 15).find?
        (fun e => e.1 == "heading") =
      pos0.find? (fun e => e.1 == "heading") :=
  ⟨by decide, by decide, by decide, by decide, by decide,
    (C10_synchronize_time_series (fun q => q) pos0 [[0, 0]] 30 15).2.2.2.2.2
      "heading" (by decide) (by decide) (by decide) (by decide) (by decide)⟩

end CaImaging
